import Mathlib

set_option maxRecDepth 8000

namespace AutoOps

/-!
Shallow embedding of the autoops incident-analysis core:
the streaming analyze route (app/api/analyze/stream/route.ts), the
synchronous analyze route (app/api/analyze/route.ts), and the execution
trigger route (app/api/execute/route.ts).

Text is modelled as `List Char`; JS numbers are modelled as rationals,
with a dedicated constructor for non-finite numbers (NaN / Infinity).
All functions are structurally recursive (fuel-based where needed) so
that concrete runs evaluate inside the kernel.
-/

abbrev Str := List Char

/-- JS-style clamp from the source: `clamp(n, min, max) = Math.min(max, Math.max(min, n))`. -/
def clamp (n lo hi : ℚ) : ℚ := min hi (max lo n)

/-- JS `Math.round`: round half toward positive infinity, i.e. `floor(x + 1/2)`. -/
def jsRound (q : ℚ) : ℤ := ⌊q + 1/2⌋

/-- JSON/JS values. `jnan` stands for a non-finite JS number (NaN or ±Infinity);
`JSON.parse` never produces it, but untrusted score inputs are quantified over it. -/
inductive JVal where
  | jnull
  | jbool (b : Bool)
  | jnum (q : ℚ)
  | jnan
  | jstr (s : Str)
  | jarr (elems : List JVal)
  | jobj (fields : List (Str × JVal))

/-- Whitespace recognised by `String.prototype.trim` / JSON (the common cases). -/
def isWsChar (c : Char) : Bool :=
  c = ' ' || c = '\n' || c = '\t' || c = '\r'

def dropLeadingWs : Str → Str
  | [] => []
  | c :: cs => if isWsChar c then dropLeadingWs cs else c :: cs

/-- JS `String.prototype.trim`. -/
def jsTrim (s : Str) : Str :=
  ((dropLeadingWs ((dropLeadingWs s).reverse)).reverse)

/-- JS `String.prototype.slice(a, b)` for non-negative in-range arguments. -/
def jsSlice (s : Str) (a b : Nat) : Str := (s.take b).drop a

/-- Does `s` start with the pattern `pat`? -/
def strStarts : Str → Str → Bool
  | _, [] => true
  | [], _ :: _ => false
  | c :: cs, p :: ps => c = p && strStarts cs ps

def idxOfAux (pat : Str) : Str → Nat → Option Nat
  | [], i => if strStarts [] pat then some i else none
  | c :: cs, i => if strStarts (c :: cs) pat then some i else idxOfAux pat cs (i + 1)

/-- JS `String.prototype.indexOf`, returning `none` instead of `-1`. -/
def indexOfStr (s pat : Str) : Option Nat := idxOfAux pat s 0

/-- JS `str.indexOf(pat) !== -1`. -/
def containsStr (s pat : Str) : Bool := (indexOfStr s pat).isSome

def lastIdxOfAux (pat : Str) : Str → Nat → Option Nat → Option Nat
  | [], i, acc => if strStarts [] pat then some i else acc
  | c :: cs, i, acc =>
      lastIdxOfAux pat cs (i + 1) (if strStarts (c :: cs) pat then some i else acc)

/-- JS `String.prototype.lastIndexOf`, returning `none` instead of `-1`. -/
def lastIndexOfStr (s pat : Str) : Option Nat := lastIdxOfAux pat s 0 none

def toLowerStr (s : Str) : Str := s.map Char.toLower

/-- Remove every (non-overlapping, left-to-right) occurrence of `pat`,
comparing case-insensitively, as JS `replace(/pat/gi, "")`.
The first argument is fuel (length of the string suffices). -/
def removeAllCI (pat : Str) : Nat → Str → Str
  | 0, s => s
  | _ + 1, [] => []
  | fuel + 1, c :: cs =>
      if strStarts (toLowerStr (c :: cs)) (toLowerStr pat) && pat.length > 0 then
        removeAllCI pat fuel ((c :: cs).drop pat.length)
      else
        c :: removeAllCI pat fuel cs

/-- Remove every occurrence of `pat` (case-sensitive), as JS `replace(/pat/g, "")`. -/
def removeAll (pat : Str) : Nat → Str → Str
  | 0, s => s
  | _ + 1, [] => []
  | fuel + 1, c :: cs =>
      if strStarts (c :: cs) pat && pat.length > 0 then
        removeAll pat fuel ((c :: cs).drop pat.length)
      else
        c :: removeAll pat fuel cs

-- The JSON object delimiters, named by code point and used both by the
-- parser below and by the first-brace/last-brace extraction of the
-- synchronous route.
def lbraceChar : Char := Char.ofNat 123
def rbraceChar : Char := Char.ofNat 125

/-! ## JSON parsing (JSON.parse), fuel-based and strict -/

def hexDigitVal (c : Char) : Option Nat :=
  if c.isDigit then some (c.toNat - 48)
  else if 'a' ≤ c && c ≤ 'f' then some (c.toNat - 87)
  else if 'A' ≤ c && c ≤ 'F' then some (c.toNat - 55)
  else none

/-- Body of a JSON string literal (after the opening quote), with fuel. -/
def parseJStrBody : Nat → Str → Option (Str × Str)
  | 0, _ => none
  | _ + 1, [] => none
  | fuel + 1, c :: cs =>
      if c = '"' then some ([], cs)
      else if c = '\\' then
        match cs with
        | [] => none
        | e :: cs2 =>
            if e = 'u' then
              match cs2 with
              | h1 :: h2 :: h3 :: h4 :: cs3 =>
                  match hexDigitVal h1, hexDigitVal h2, hexDigitVal h3, hexDigitVal h4 with
                  | some a, some b, some c3, some d =>
                      match parseJStrBody fuel cs3 with
                      | some (r, rest) =>
                          some (Char.ofNat (a * 4096 + b * 256 + c3 * 16 + d) :: r, rest)
                      | none => none
                  | _, _, _, _ => none
              | _ => none
            else
              let decoded : Option Char :=
                if e = '"' then some '"'
                else if e = '\\' then some '\\'
                else if e = '/' then some '/'
                else if e = 'b' then some (Char.ofNat 8)
                else if e = 'f' then some (Char.ofNat 12)
                else if e = 'n' then some '\n'
                else if e = 'r' then some '\r'
                else if e = 't' then some '\t'
                else none
              match decoded with
              | some d =>
                  match parseJStrBody fuel cs2 with
                  | some (r, rest) => some (d :: r, rest)
                  | none => none
              | none => none
      else
        match parseJStrBody fuel cs with
        | some (r, rest) => some (c :: r, rest)
        | none => none

/-- Split a leading run of decimal digits. -/
def takeDigits : Str → Str × Str
  | [] => ([], [])
  | c :: cs =>
      if c.isDigit then
        let (d, r) := takeDigits cs
        (c :: d, r)
      else ([], c :: cs)

def digitsToNat (l : Str) : Nat :=
  l.foldl (fun acc c => acc * 10 + (c.toNat - 48)) 0

/-- Multiply by a signed power of ten. -/
def mulPow10 (q : ℚ) (e : ℤ) : ℚ :=
  if 0 ≤ e then q * (10 : ℚ) ^ e.toNat else q / (10 : ℚ) ^ (-e).toNat

/-- Parse the exponent part (after `e`/`E`) of a numeric literal. -/
def parseExpPart (s : Str) : Option (ℤ × Str) :=
  match s with
  | '+' :: rest =>
      let (d, r) := takeDigits rest
      if d.isEmpty then none else some ((digitsToNat d : ℤ), r)
  | '-' :: rest =>
      let (d, r) := takeDigits rest
      if d.isEmpty then none else some (-(digitsToNat d : ℤ), r)
  | _ =>
      let (d, r) := takeDigits s
      if d.isEmpty then none else some ((digitsToNat d : ℤ), r)

/-- Parse a strict JSON number (sign, integer part without leading zeros,
optional fraction, optional exponent). -/
def parseJNumber (s : Str) : Option (ℚ × Str) :=
  let (neg, s1) := match s with
    | '-' :: rest => (true, rest)
    | _ => (false, s)
  let (intDigits, s2) := takeDigits s1
  if intDigits.isEmpty then none
  else if intDigits.length > 1 && intDigits.headI = '0' then none
  else
    let ipart : ℚ := (digitsToNat intDigits : ℚ)
    let (frac, s3) : ℚ × Str := match s2 with
      | '.' :: rest =>
          let (fd, r) := takeDigits rest
          if fd.isEmpty then (0, s2)
          else ((digitsToNat fd : ℚ) / (10 : ℚ) ^ fd.length, r)
      | _ => (0, s2)
    -- a fraction dot with no digits is a parse error
    match s2 with
    | '.' :: rest =>
        let (fd, _) := takeDigits rest
        if fd.isEmpty then none
        else
          parseJNumTail neg (ipart + frac) s3
    | _ => parseJNumTail neg (ipart + frac) s3
where
  parseJNumTail (neg : Bool) (mant : ℚ) (s : Str) : Option (ℚ × Str) :=
    match s with
    | 'e' :: rest =>
        match parseExpPart rest with
        | some (e, r) => some ((if neg then -1 else 1) * mulPow10 mant e, r)
        | none => none
    | 'E' :: rest =>
        match parseExpPart rest with
        | some (e, r) => some ((if neg then -1 else 1) * mulPow10 mant e, r)
        | none => none
    | _ => some ((if neg then -1 else 1) * mant, s)

/-- Insert key `k` with value `v` into a JS object field list: if `k` is
already present its value is replaced in place (JS keeps first-insertion
order, last value), otherwise the binding is appended. -/
def objInsert (fs : List (Str × JVal)) (k : Str) (v : JVal) : List (Str × JVal) :=
  match fs with
  | [] => [(k, v)]
  | (k0, v0) :: rest =>
      if k0 = k then (k0, v) :: rest else (k0, v0) :: objInsert rest k v

/-- First (and in a parsed object, only) binding of a key. -/
def lookupField (fs : List (Str × JVal)) (k : Str) : Option JVal :=
  match fs with
  | [] => none
  | (k0, v0) :: rest => if k0 = k then some v0 else lookupField rest k

/-- Parser mode: a whole value, the items of an array (after `[`),
or the members of an object (after the opening brace). -/
inductive PMode where
  | val
  | arrItems
  | objItems

inductive PRes where
  | v (x : JVal)
  | items (xs : List JVal)
  | fields (fs : List (Str × JVal))

/-- One fuel-indexed step of the JSON parser (covers values, array items
and object members; recursion is on the fuel only). -/
def parseStep : Nat → PMode → Str → Option (PRes × Str)
  | 0, _, _ => none
  | fuel + 1, PMode.val, s =>
      match dropLeadingWs s with
      | 'n' :: 'u' :: 'l' :: 'l' :: rest => some (PRes.v JVal.jnull, rest)
      | 't' :: 'r' :: 'u' :: 'e' :: rest => some (PRes.v (JVal.jbool true), rest)
      | 'f' :: 'a' :: 'l' :: 's' :: 'e' :: rest => some (PRes.v (JVal.jbool false), rest)
      | '"' :: rest =>
          match parseJStrBody (rest.length + 1) rest with
          | some (str, r) => some (PRes.v (JVal.jstr str), r)
          | none => none
      | c :: rest =>
          if c = lbraceChar then
            match parseStep fuel PMode.objItems rest with
            | some (PRes.fields fs, r) =>
                some (PRes.v (JVal.jobj (fs.foldl (fun acc kv => objInsert acc kv.1 kv.2) [])), r)
            | _ => none
          else if c = '[' then
            match parseStep fuel PMode.arrItems rest with
            | some (PRes.items xs, r) => some (PRes.v (JVal.jarr xs), r)
            | _ => none
          else
            match parseJNumber (c :: rest) with
            | some (q, r) => some (PRes.v (JVal.jnum q), r)
            | none => none
      | [] => none
  | fuel + 1, PMode.arrItems, s =>
      match dropLeadingWs s with
      | ']' :: r => some (PRes.items [], r)
      | s' =>
          match parseStep fuel PMode.val s' with
          | some (PRes.v x, r) =>
              match dropLeadingWs r with
              | ',' :: r2 =>
                  match parseStep fuel PMode.arrItems r2 with
                  | some (PRes.items xs, r3) => some (PRes.items (x :: xs), r3)
                  | _ => none
              | ']' :: r2 => some (PRes.items [x], r2)
              | _ => none
          | _ => none
  | fuel + 1, PMode.objItems, s =>
      match dropLeadingWs s with
      | c :: r =>
          if c = rbraceChar then some (PRes.fields [], r)
          else if c = '"' then
            match parseJStrBody (r.length + 1) r with
            | some (key, r1) =>
                match dropLeadingWs r1 with
                | ':' :: r2 =>
                    match parseStep fuel PMode.val r2 with
                    | some (PRes.v x, r3) =>
                        match dropLeadingWs r3 with
                        | ',' :: r4 =>
                            match parseStep fuel PMode.objItems r4 with
                            | some (PRes.fields fs, r5) =>
                                some (PRes.fields ((key, x) :: fs), r5)
                            | _ => none
                        | c2 :: r4 =>
                            if c2 = rbraceChar then some (PRes.fields [(key, x)], r4)
                            else none
                        | [] => none
                    | _ => none
                | _ => none
            | none => none
          else none
      | [] => none

/-- JS `JSON.parse`, as a total function returning `none` where it throws. -/
def jsonParseStr (s : Str) : Option JVal :=
  match parseStep (s.length + 1) PMode.val s with
  | some (PRes.v x, rest) => if dropLeadingWs rest = [] then some x else none
  | _ => none

/-! ## JS value coercions -/

/-- Property access `v.k` / `v?.k`: `none` models `undefined`. -/
def jvGet (v : JVal) (k : Str) : Option JVal :=
  match v with
  | JVal.jobj fs => lookupField fs k
  | _ => none

/-- Optional-chained property access `o?.k`. -/
def ojGet (o : Option JVal) (k : Str) : Option JVal :=
  match o with
  | some v => jvGet v k
  | none => none

/-- JS truthiness (with `none` as `undefined`). -/
def jsTruthy (o : Option JVal) : Bool :=
  match o with
  | none => false
  | some JVal.jnull => false
  | some (JVal.jbool b) => b
  | some (JVal.jnum q) => decide (q ≠ 0)
  | some JVal.jnan => false
  | some (JVal.jstr s) => !s.isEmpty
  | some (JVal.jarr _) => true
  | some (JVal.jobj _) => true

def isJArr (o : Option JVal) : Bool :=
  match o with
  | some (JVal.jarr _) => true
  | _ => false

def jarrElems (o : Option JVal) : List JVal :=
  match o with
  | some (JVal.jarr xs) => xs
  | _ => []

/-- JS `Number("...")` on a string: trimmed empty is 0, `Infinity` is
non-finite, otherwise a decimal literal with optional sign, fraction and
exponent that must consume the whole string. (Hex/octal literals are not
modelled; no claim depends on them.) -/
def strToNumberJS (s : Str) : Option ℚ :=
  let t := jsTrim s
  if t.isEmpty then some 0
  else
    let (neg, t1) := match t with
      | '-' :: rest => (true, rest)
      | '+' :: rest => (false, rest)
      | _ => (false, t)
    if t1 = ("Infinity".toList) then none
    else
      let (intDigits, t2) := takeDigits t1
      let (fracDigits, t3) : Str × Str := match t2 with
        | '.' :: rest => takeDigits rest
        | _ => ([], t2)
      if intDigits.isEmpty && fracDigits.isEmpty then none
      else
        let mant : ℚ :=
          (digitsToNat intDigits : ℚ) + (digitsToNat fracDigits : ℚ) / (10 : ℚ) ^ fracDigits.length
        match t3 with
        | [] => some ((if neg then -1 else 1) * mant)
        | 'e' :: rest =>
            match parseExpPart rest with
            | some (e, []) => some ((if neg then -1 else 1) * mulPow10 mant e)
            | _ => none
        | 'E' :: rest =>
            match parseExpPart rest with
            | some (e, []) => some ((if neg then -1 else 1) * mulPow10 mant e)
            | _ => none
        | _ => none

/-- JS `Number(v)` with `none` (in and out) standing for `undefined` in and a
non-finite result out. `Number([])` is approximated as non-finite (real JS
coerces arrays through strings; no claim depends on that corner). -/
def jsToNumber (o : Option JVal) : Option ℚ :=
  match o with
  | none => none
  | some JVal.jnull => some 0
  | some (JVal.jbool b) => some (if b then 1 else 0)
  | some (JVal.jnum q) => some q
  | some JVal.jnan => none
  | some (JVal.jstr s) => strToNumberJS s
  | some (JVal.jarr _) => none
  | some (JVal.jobj _) => none

/-- JS `String(x ?? "")` for a non-string array element. Decimal rendering of
non-integral numbers and array joining are approximated (no claim uses them). -/
def jvToStringCoerce (x : JVal) : Str :=
  match x with
  | JVal.jnull => []
  | JVal.jstr s => s
  | JVal.jbool true => "true".toList
  | JVal.jbool false => "false".toList
  | JVal.jnum q =>
      if q.den = 1 then
        (if q.num < 0 then '-' :: Nat.toDigits 10 q.num.natAbs else Nat.toDigits 10 q.num.natAbs)
      else []
  | JVal.jnan => "NaN".toList
  | JVal.jarr _ => []
  | JVal.jobj _ => ("[object Object]".toList)

/-! ## Synchronous route (app/api/analyze/route.ts): safety helpers -/

/-- Source `toNumber`: `Number(v)` with a fallback for non-finite results. -/
def toNumber (v : Option JVal) (fallback : ℚ) : ℚ :=
  (jsToNumber v).getD fallback

/-- Source `toInt01to100`: `clamp(Math.round(toNumber(v, fallback)), 0, 100)`. -/
def toInt01to100 (v : Option JVal) (fallback : ℚ) : ℚ :=
  clamp ((jsRound (toNumber v fallback) : ℚ)) 0 100

/-- Source `toProb01`: `clamp(toNumber(v, fallback), 0, 1)`. -/
def toProb01 (v : Option JVal) (fallback : ℚ) : ℚ :=
  clamp (toNumber v fallback) 0 1

/-- Source `toStringSafe`: keep strings, otherwise the fallback. -/
def toStringSafe (v : Option JVal) (fallback : Str) : Str :=
  match v with
  | some (JVal.jstr s) => s
  | _ => fallback

/-- Source `toStringArray`: coerce each element to a string, trim, drop
empties, truncate. -/
def toStringArray (v : Option JVal) (limit : Nat) : List Str :=
  match v with
  | some (JVal.jarr xs) =>
      ((((xs.map (fun x => match x with
          | JVal.jstr s => s
          | other => jvToStringCoerce other)).map jsTrim).filter
            (fun s => !s.isEmpty)).take limit)
  | _ => []

inductive ServiceStatus where
  | healthy
  | degraded
  | down
deriving DecidableEq

def statusText : ServiceStatus → Str
  | ServiceStatus.healthy => "healthy".toList
  | ServiceStatus.degraded => "degraded".toList
  | ServiceStatus.down => "down".toList

/-- Source `safeServiceStatus`: anything outside the enum maps to `degraded`. -/
def safeServiceStatus (v : Option JVal) : ServiceStatus :=
  match v with
  | some (JVal.jstr s) =>
      if s = ("healthy".toList) then ServiceStatus.healthy
      else if s = ("degraded".toList) then ServiceStatus.degraded
      else if s = ("down".toList) then ServiceStatus.down
      else ServiceStatus.degraded
  | _ => ServiceStatus.degraded

structure Service where
  name : Str
  status : ServiceStatus
  signals : List Str
  suspected_components : List Str
deriving DecidableEq

structure PNode where
  id : Str
  label : Str
deriving DecidableEq

structure PEdge where
  fromNode : Str
  toNode : Str
  label : Str
deriving DecidableEq

structure Propagation where
  nodes : List PNode
  edges : List PEdge
deriving DecidableEq

structure Cause where
  name : Str
  probability : ℚ
  reasoning : Str
  recommended_action : Str
deriving DecidableEq

structure AnalyzeResult where
  incident_type : Str
  executive_summary : Str
  severity_score : ℚ
  business_impact_score : ℚ
  estimated_recovery_time_minutes : ℚ
  probable_causes : List Cause
  recommended_runbook_steps : List Str
  confidence : ℚ
  services : List Service
  propagation : Propagation
deriving DecidableEq

def svcGatewayName : Str := "api-gateway".toList
def svcDbName : Str := "primary-db".toList
def svcCacheName : Str := "cache".toList
def fallbackSignal : Str := "Fallback service map".toList

/-- Source `buildFallbackServices`: fixed 3-service topology, escalated when
the incident type mentions an outage. -/
def buildFallbackServices (incidentType : Str) : List Service :=
  let it := toLowerStr incidentType
  let escalate := containsStr it ("outage".toList) || containsStr it ("down".toList) ||
      containsStr it ("critical".toList)
  [ { name := svcGatewayName
      status := if escalate then ServiceStatus.down else ServiceStatus.degraded
      signals := [fallbackSignal]
      suspected_components := ["request-routing".toList, "auth".toList, "rate-limiter".toList] },
    { name := svcDbName
      status := if escalate then ServiceStatus.down else ServiceStatus.degraded
      signals := [fallbackSignal]
      suspected_components := ["connections".toList, "replication".toList, "locks".toList] },
    { name := svcCacheName
      status := if escalate then ServiceStatus.degraded else ServiceStatus.healthy
      signals := [fallbackSignal]
      suspected_components := ["evictions".toList, "latency".toList, "memory".toList] } ]

/-- Source `buildPropagationFromServices`. -/
def buildPropagationFromServices (services : List Service) : Propagation :=
  { nodes := services.map (fun s => { id := s.name, label := s.name })
    edges :=
      match services with
      | s0 :: s1 :: s2 :: _ =>
          [ { fromNode := s0.name, toNode := s1.name, label := "depends_on".toList },
            { fromNode := s0.name, toNode := s2.name, label := "uses_cache".toList } ]
      | _ => [] }

def countStatus (st : ServiceStatus) (services : List Service) : Nat :=
  (services.filter (fun s => s.status = st)).length

/-- Source `calculateSeverityFromServices` of the synchronous route:
threshold-based (+70 for two or more down, +45 for exactly one, +10 per
degraded), clamped. -/
def calculateSeverityFromServicesSync (services : List Service) : ℚ :=
  let downCount := countStatus ServiceStatus.down services
  let degradedCount := countStatus ServiceStatus.degraded services
  clamp ((if downCount ≥ 2 then 70 else if downCount = 1 then 45 else 0) +
    (degradedCount : ℚ) * 10) 0 100

/-- Source `calculateBlastRadius` of the synchronous route. -/
def calculateBlastRadius (services : List Service) : ℚ :=
  let total := services.length
  if total = 0 then 0
  else
    let down := countStatus ServiceStatus.down services
    let degraded := countStatus ServiceStatus.degraded services
    clamp ((jsRound (((down : ℚ) + (degraded : ℚ) * (0.5 : ℚ)) / (total : ℚ) * 100) : ℚ)) 0 100

/-- Source `calculateImpactFromPropagation`: `clamp(5·nodes + 8·edges, 0, 100)`. -/
def calculateImpactFromPropagation (propagation : Propagation) : ℚ :=
  clamp ((propagation.nodes.length : ℚ) * 5 + (propagation.edges.length : ℚ) * 8) 0 100

/-! ## Synchronous route: JSON extraction and normalization -/

/-- The candidate substring that `safeJSONParse` feeds to `JSON.parse`:
code fences stripped, then the substring from the first opening brace to
the last closing brace of the trimmed text (or the whole text). -/
def extractCandidate (text : Str) : Str :=
  let cleaned := jsTrim ((removeAll (("```".toList)) (text.length + 1)
    (removeAllCI (("```json".toList)) (text.length + 1) text)))
  match indexOfStr cleaned [lbraceChar], lastIndexOfStr cleaned [rbraceChar] with
  | some first, some last =>
      if last > first then jsSlice cleaned first (last + 1) else cleaned
  | _, _ => cleaned

/-- Source `safeJSONParse`: parse the extracted candidate; `none` models the
thrown exception. -/
def safeJSONParse (text : Str) : Option JVal :=
  jsonParseStr (extractCandidate text)

def keyIncidentType : Str := "incident_type".toList
def keyExecSummary : Str := "executive_summary".toList
def keySeverity : Str := "severity_score".toList
def keyImpact : Str := "business_impact_score".toList
def keyErt : Str := "estimated_recovery_time_minutes".toList
def keyConfidence : Str := "confidence".toList
def keyProbableCauses : Str := "probable_causes".toList
def keyRunbook : Str := "recommended_runbook_steps".toList
def keyServices : Str := "services".toList
def keyPropagation : Str := "propagation".toList
def keyNodes : Str := "nodes".toList
def keyEdges : Str := "edges".toList
def keyName : Str := "name".toList
def keyStatus : Str := "status".toList
def keySignals : Str := "signals".toList
def keySuspected : Str := "suspected_components".toList
def keyProbability : Str := "probability".toList
def keyReasoning : Str := "reasoning".toList
def keyRecommendedAction : Str := "recommended_action".toList
def keyId : Str := "id".toList
def keyLabel : Str := "label".toList
def keyFrom : Str := "from".toList
def keyTo : Str := "to".toList

def syncIncidentType (parsed : JVal) : Str :=
  toStringSafe (jvGet parsed keyIncidentType) ("Unknown Incident".toList)

/-- Per-entry service coercion of the synchronous route. -/
def coerceService (s : JVal) : Service :=
  let n := jsTrim (toStringSafe (jvGet s keyName) [])
  { name := if n.isEmpty then ("unknown-service".toList) else n
    status := safeServiceStatus (jvGet s keyStatus)
    signals := toStringArray (jvGet s keySignals) 12
    suspected_components := toStringArray (jvGet s keySuspected) 12 }

/-- The coerced (pre-fallback, pre-dedup) services of the synchronous route. -/
def syncCoercedServices (parsed : JVal) : List Service :=
  match jvGet parsed keyServices with
  | some (JVal.jarr xs) => (xs.map coerceService).filter (fun s => s.name.length > 0)
  | _ => []

/-- Seen-set duplicate-name filter (first occurrence wins). -/
def dedupAux (seen : List Str) : List Service → List Service
  | [] => []
  | s :: rest =>
      if seen.contains s.name then dedupAux seen rest
      else s :: dedupAux (s.name :: seen) rest

def dedupByName (services : List Service) : List Service := dedupAux [] services

/-- Services after the fewer-than-3 fallback check (before dedup). -/
def syncServicesPreDedup (parsed : JVal) : List Service :=
  if (syncCoercedServices parsed).length < 3 then
    buildFallbackServices (syncIncidentType parsed)
  else syncCoercedServices parsed

/-- The normalized services of the synchronous route. -/
def syncServices (parsed : JVal) : List Service :=
  dedupByName (syncServicesPreDedup parsed)

def coercePNode (n : JVal) : PNode :=
  { id := jsTrim (toStringSafe (jvGet n keyId) [])
    label := jsTrim (toStringSafe (jvGet n keyLabel) []) }

def dedupNodesAux (seen : List Str) : List PNode → List PNode
  | [] => []
  | n :: rest =>
      if seen.contains n.id then dedupNodesAux seen rest
      else n :: dedupNodesAux (n.id :: seen) rest

def coercePEdge (e : JVal) : PEdge :=
  let l := jsTrim (toStringSafe (jvGet e keyLabel) [])
  { fromNode := jsTrim (toStringSafe (jvGet e keyFrom) [])
    toNode := jsTrim (toStringSafe (jvGet e keyTo) [])
    label := if l.isEmpty then ("depends_on".toList) else l }

/-- Model-supplied propagation if it validates (arrays present, at least two
deduplicated non-empty nodes). -/
def syncParsedPropagation (parsed : JVal) : Option Propagation :=
  let p := jvGet parsed keyPropagation
  let nodesO := ojGet p keyNodes
  let edgesO := ojGet p keyEdges
  if jsTruthy nodesO && jsTruthy edgesO && isJArr nodesO && isJArr edgesO then
    let nodes := ((dedupNodesAux [] (((jarrElems nodesO).map coercePNode).filter
      (fun n => !n.id.isEmpty && !n.label.isEmpty))).take 30)
    let edges := ((((jarrElems edgesO).map coercePEdge).filter
      (fun e => !e.fromNode.isEmpty && !e.toNode.isEmpty)).take 60)
    if nodes.length ≥ 2 then some { nodes := nodes, edges := edges } else none
  else none

/-- The normalized propagation of the synchronous route. -/
def syncPropagation (parsed : JVal) : Propagation :=
  (syncParsedPropagation parsed).getD (buildPropagationFromServices (syncServices parsed))

def coerceCause (c : JVal) : Cause :=
  { name := toStringSafe (jvGet c keyName) ("Unknown Cause".toList)
    probability := toProb01 (jvGet c keyProbability) 0
    reasoning := toStringSafe (jvGet c keyReasoning) []
    recommended_action := toStringSafe (jvGet c keyRecommendedAction) [] }

/-- Stable insertion into a probability-descending list (JS stable sort with
comparator `b.probability - a.probability`). -/
def insertCauseDesc (c : Cause) : List Cause → List Cause
  | [] => [c]
  | d :: ds =>
      if c.probability ≥ d.probability then c :: d :: ds
      else d :: insertCauseDesc c ds

def sortCausesDesc : List Cause → List Cause
  | [] => []
  | c :: cs => insertCauseDesc c (sortCausesDesc cs)

def syncProbableCauses (parsed : JVal) : List Cause :=
  match jvGet parsed keyProbableCauses with
  | some (JVal.jarr xs) =>
      ((sortCausesDesc ((xs.map coerceCause).filter
        (fun c => (jsTrim c.name).length > 0))).take 5)
  | _ => []

def syncAiSeverity (parsed : JVal) : ℚ := toInt01to100 (jvGet parsed keySeverity) 0
def syncAiImpact (parsed : JVal) : ℚ := toInt01to100 (jvGet parsed keyImpact) 0
def syncDeterministicSeverity (parsed : JVal) : ℚ :=
  calculateSeverityFromServicesSync (syncServices parsed)
def syncDeterministicImpact (parsed : JVal) : ℚ :=
  calculateImpactFromPropagation (syncPropagation parsed)
def syncBlastRadius (parsed : JVal) : ℚ := calculateBlastRadius (syncServices parsed)

/-- Final severity of the synchronous route:
`clamp(Math.round(Math.max(aiSeverity, deterministicSeverity)), 0, 100)`. -/
def syncFinalSeverity (parsed : JVal) : ℚ :=
  clamp ((jsRound (max (syncAiSeverity parsed) (syncDeterministicSeverity parsed)) : ℚ)) 0 100

/-- Final impact of the synchronous route:
`clamp(Math.round(ai*0.5 + det*0.3 + blast*0.2), 0, 100)`. -/
def syncFinalImpact (parsed : JVal) : ℚ :=
  clamp ((jsRound (syncAiImpact parsed * (0.5 : ℚ) +
    syncDeterministicImpact parsed * (0.3 : ℚ) +
    syncBlastRadius parsed * (0.2 : ℚ)) : ℚ)) 0 100

/-- The whole normalization + deterministic-scoring layer of the synchronous
route, applied to the parsed model JSON. -/
def normalizeSync (parsed : JVal) : AnalyzeResult :=
  { incident_type := syncIncidentType parsed
    executive_summary := toStringSafe (jvGet parsed keyExecSummary) []
    severity_score := syncFinalSeverity parsed
    business_impact_score := syncFinalImpact parsed
    estimated_recovery_time_minutes := max 0 (toNumber (jvGet parsed keyErt) 0)
    probable_causes := syncProbableCauses parsed
    recommended_runbook_steps := toStringArray (jvGet parsed keyRunbook) 10
    confidence := toProb01 (jvGet parsed keyConfidence) 0
    services := syncServices parsed
    propagation := syncPropagation parsed }

def aiInvalidJsonMsg : Str := "AI returned invalid JSON".toList

/-- The synchronous route from the raw model text on: JSON extraction, then
normalization + scoring; a parse failure is a typed error (HTTP 500 with the
fixed message), never a report. -/
def syncPOSTModel (modelText : Str) : Except Str AnalyzeResult :=
  match safeJSONParse modelText with
  | none => Except.error aiInvalidJsonMsg
  | some parsed => Except.ok (normalizeSync parsed)

/-! ## Streaming route (app/api/analyze/stream/route.ts) -/

def openTag : Str := "<FINAL_JSON>".toList
def closeTag : Str := "</FINAL_JSON>".toList
def invalidJsonMsg : Str := "Invalid JSON structure from model.".toList
def noFinalJsonMsg : Str := "Model did not return FINAL_JSON block.".toList

/-- Events on the SSE channel: narration tokens, one final report, or one
error. -/
inductive SEvent where
  | token (text : Str)
  | finalEv (data : JVal)
  | errorEv (msg : Str)

/-- Source `safeInt` of the streaming route (default fallback 0). -/
def streamSafeInt (v : Option JVal) : ℚ :=
  match jsToNumber v with
  | some n => clamp ((jsRound n : ℚ)) 0 100
  | none => 0

/-- Source `safeProb` of the streaming route. -/
def streamSafeProb (v : Option JVal) : ℚ :=
  match jsToNumber v with
  | some n => clamp n 0 1
  | none => 0

/-- `Array.isArray(parsed.services) ? parsed.services : []`. -/
def streamServices (parsed : JVal) : List JVal :=
  match jvGet parsed keyServices with
  | some (JVal.jarr xs) => xs
  | _ => []

def defaultPropagation : JVal :=
  JVal.jobj [(keyNodes, JVal.jarr []), (keyEdges, JVal.jarr [])]

/-- `typeof v === "object"` for a defined value. -/
def typeofIsObject (v : JVal) : Bool :=
  match v with
  | JVal.jobj _ => true
  | JVal.jarr _ => true
  | JVal.jnull => true
  | _ => false

/-- `parsed.propagation && typeof parsed.propagation === "object" ? it : {nodes:[],edges:[]}`. -/
def streamPropagation (parsed : JVal) : JVal :=
  match jvGet parsed keyPropagation with
  | some v => if jsTruthy (some v) && typeofIsObject v then v else defaultPropagation
  | none => defaultPropagation

/-- `s?.status === txt` on a raw service entry. -/
def statusFieldIs (s : JVal) (txt : Str) : Bool :=
  match jvGet s keyStatus with
  | some (JVal.jstr t) => t = txt
  | _ => false

/-- Source `calculateSeverityFromServices` of the streaming route:
additive +35 per down, +15 per degraded, clamped. -/
def calculateSeverityFromServicesStream (svcs : List JVal) : ℚ :=
  clamp (svcs.foldl (fun score s =>
    (score + (if statusFieldIs s ("down".toList) then 35 else 0)) +
      (if statusFieldIs s ("degraded".toList) then 15 else 0)) 0) 0 100

/-- Source `calculateBlastRadius` of the streaming route. -/
def calculateBlastRadiusStream (svcs : List JVal) : ℚ :=
  let total := svcs.length
  if total = 0 then 0
  else
    let down := (svcs.filter (fun s => statusFieldIs s ("down".toList))).length
    let degraded := (svcs.filter (fun s => statusFieldIs s ("degraded".toList))).length
    clamp ((jsRound (((down : ℚ) + (degraded : ℚ) * (0.5 : ℚ)) / (total : ℚ) * 100) : ℚ)) 0 100

/-- Source `calculateImpactFromPropagation` of the streaming route (raw JSON
propagation value). -/
def calculateImpactFromPropagationStream (prop : JVal) : ℚ :=
  let nodeCount := (jarrElems (jvGet prop keyNodes)).length
  let edgeCount := (jarrElems (jvGet prop keyEdges)).length
  clamp ((nodeCount : ℚ) * 5 + (edgeCount : ℚ) * 8) 0 100

def streamAiSeverity (parsed : JVal) : ℚ := streamSafeInt (jvGet parsed keySeverity)
def streamAiImpact (parsed : JVal) : ℚ := streamSafeInt (jvGet parsed keyImpact)
def streamDeterministicSeverity (parsed : JVal) : ℚ :=
  calculateSeverityFromServicesStream (streamServices parsed)
def streamDeterministicImpact (parsed : JVal) : ℚ :=
  calculateImpactFromPropagationStream (streamPropagation parsed)
def streamBlastRadius (parsed : JVal) : ℚ :=
  calculateBlastRadiusStream (streamServices parsed)

/-- `parsed.severity_score = clamp(Math.max(aiSeverity, deterministicSeverity), 0, 100)`. -/
def streamFinalSeverityOf (parsed : JVal) : ℚ :=
  clamp (max (streamAiSeverity parsed) (streamDeterministicSeverity parsed)) 0 100

/-- `parsed.business_impact_score = clamp(Math.round(ai*0.5 + det*0.3 + blast*0.2), 0, 100)`. -/
def streamFinalImpactOf (parsed : JVal) : ℚ :=
  clamp ((jsRound (streamAiImpact parsed * (0.5 : ℚ) +
    streamDeterministicImpact parsed * (0.3 : ℚ) +
    streamBlastRadius parsed * (0.2 : ℚ)) : ℚ)) 0 100

def streamConfidenceOf (parsed : JVal) : ℚ := streamSafeProb (jvGet parsed keyConfidence)

/-- The object sent in the `final` event: the parsed JSON with exactly the
three score fields overwritten (all reads happen before the writes in the
source, and none of the written keys is read afterwards). -/
def streamFinalReport (parsed : JVal) : JVal :=
  match parsed with
  | JVal.jobj fs =>
      JVal.jobj (objInsert (objInsert (objInsert fs
        keySeverity (JVal.jnum (streamFinalSeverityOf parsed)))
        keyImpact (JVal.jnum (streamFinalImpactOf parsed)))
        keyConfidence (JVal.jnum (streamConfidenceOf parsed)))
  | other => other

/-- Parser state owned by one streaming analysis. `lastNarrationSentIndex`
is declared in the source and used in the narration slice, but never
updated. `closed` records that `controller.close()` ran and the handler
returned. -/
structure StreamState where
  fullText : Str
  jsonStarted : Bool
  lastNarrationSentIndex : Nat
  finalSent : Bool
  closed : Bool

def initStreamState : StreamState :=
  { fullText := [], jsonStarted := false, lastNarrationSentIndex := 0,
    finalSent := false, closed := false }

/-- The terminal event produced once a complete delimited block parses:
a `final` event for objects (and arrays, whose stringified form ignores the
added properties), an `error` event for primitives (the strict-mode
`TypeError` raised by the property assignment is caught by the same
`catch`). Also says whether `finalSent` is set. -/
def streamHandleParsed (parsed : JVal) : SEvent × Bool :=
  match parsed with
  | JVal.jobj _ => (SEvent.finalEv (streamFinalReport parsed), true)
  | JVal.jarr _ => (SEvent.finalEv parsed, true)
  | _ => (SEvent.errorEv invalidJsonMsg, false)

/-- Section 1 of the chunk loop (narration emission / `<FINAL_JSON>` start
detection): the new `jsonStarted` flag and the narration events. -/
def narrStep (st : StreamState) (fullText text : Str) : Bool × List SEvent :=
  if !st.finalSent && !st.jsonStarted then
    match indexOfStr fullText openTag with
    | none => (false, [SEvent.token text])
    | some startIndex =>
        let narrationPart := jsSlice fullText st.lastNarrationSentIndex startIndex
        (true, if (jsTrim narrationPart).isEmpty then [] else [SEvent.token narrationPart])
  else (st.jsonStarted, [])

/-- Section 2 of the chunk loop (complete-block detection, parse, terminal
event): the successor state and the terminal events (at most one). -/
def finishStep (st : StreamState) (fullText : Str) (jsonStarted : Bool) :
    StreamState × List SEvent :=
  if !st.finalSent then
    match indexOfStr fullText openTag, indexOfStr fullText closeTag with
    | some s0, some e0 =>
        if e0 > s0 then
          let jsonText := jsTrim (jsSlice fullText (s0 + openTag.length) e0)
          match jsonParseStr jsonText with
          | some parsed =>
              let r := streamHandleParsed parsed
              ({ fullText := if r.2 then [] else fullText,
                 jsonStarted := jsonStarted,
                 lastNarrationSentIndex := st.lastNarrationSentIndex,
                 finalSent := r.2, closed := true },
               [r.1])
          | none =>
              ({ fullText := fullText, jsonStarted := jsonStarted,
                 lastNarrationSentIndex := st.lastNarrationSentIndex,
                 finalSent := st.finalSent, closed := true },
               [SEvent.errorEv invalidJsonMsg])
        else
          ({ st with fullText := fullText, jsonStarted := jsonStarted }, [])
    | _, _ =>
        ({ st with fullText := fullText, jsonStarted := jsonStarted }, [])
  else ({ st with fullText := fullText, jsonStarted := jsonStarted }, [])

/-- One iteration of the `for await` chunk loop of the streaming route. -/
def processChunk (st : StreamState) (text : Str) : StreamState × List SEvent :=
  if st.closed then (st, [])
  else if text.isEmpty then (st, [])
  else
    let fullText := st.fullText ++ text
    let s1 := narrStep st fullText text
    let r := finishStep st fullText s1.1
    (r.1, s1.2 ++ r.2)

def runChunks : StreamState → List Str → StreamState × List SEvent
  | st, [] => (st, [])
  | st, c :: cs =>
      let r1 := processChunk st c
      let r2 := runChunks r1.1 cs
      (r2.1, r1.2 ++ r2.2)

/-- A whole streaming analysis: consume the fragments in order; if the loop
finishes without the handler having returned, emit the missing-block error. -/
def runStream (frags : List Str) : List SEvent :=
  let r := runChunks initStreamState frags
  if r.1.closed then r.2 else r.2 ++ [SEvent.errorEv noFinalJsonMsg]

/-! ## Execution-trigger route (app/api/execute/route.ts) -/

inductive ExecResponse where
  | invalidService
  | executed (service : Str)
deriving DecidableEq

/-- Outcome of one execute request: whether the downstream webhook call was
made, and the response returned. -/
structure ExecOutcome where
  webhookCalled : Bool
  response : ExecResponse
deriving DecidableEq

def keyService : Str := "service".toList

def allowedServices : List Str := [svcGatewayName, svcDbName, svcCacheName]

/-- The string content of `body?.service` when it is a string (strict
equality in `includes` means only strings can ever match). -/
def serviceStrOf (v : Option JVal) : Option Str :=
  match v with
  | some (JVal.jstr s) => some s
  | _ => none

/-- The allow-list guard of the execute route:
`["api-gateway","primary-db","cache"].includes(service)` (strict equality,
so non-strings never pass). -/
def isAllowedService (v : Option JVal) : Bool :=
  match serviceStrOf v with
  | some s => allowedServices.contains s
  | none => false

/-- The execute route: reject anything outside the allow-list with a 400
before the webhook fetch; call the webhook only for allowed identifiers. -/
def executeRoute (body : JVal) : ExecOutcome :=
  match serviceStrOf (jvGet body keyService) with
  | some s =>
      if allowedServices.contains s then
        { webhookCalled := true, response := ExecResponse.executed s }
      else
        { webhookCalled := false, response := ExecResponse.invalidService }
  | none => { webhookCalled := false, response := ExecResponse.invalidService }

/-! ## Derived definitions and concrete inputs used by the theorems -/

/-- Integer clamp to [0,100]. -/
def clampInt (k : ℤ) : ℤ := min 100 (max 0 k)

/-- `streamSafeInt` as an integer. -/
def streamSafeIntZ (v : Option JVal) : ℤ :=
  match jsToNumber v with
  | some n => clampInt (jsRound n)
  | none => 0

/-- `toInt01to100` as an integer. -/
def toIntZ (v : Option JVal) (fallback : ℚ) : ℤ := clampInt (jsRound (toNumber v fallback))

def c8BadText : Str := "no json here".toList

def c9BadBody : JVal := JVal.jobj [(keyService, JVal.jstr ("payments".toList))]

def c10Fields : List (Str × JVal) :=
  [(keyIncidentType, JVal.jstr ("DB outage".toList)), (keySeverity, JVal.jnum 3)]

def c6Prop : Propagation := buildPropagationFromServices (buildFallbackServices [])

def svcJson (nm st : Str) : JVal :=
  JVal.jobj [(keyName, JVal.jstr nm), (keyStatus, JVal.jstr st)]

def c4Services : JVal :=
  JVal.jarr [svcJson ("a".toList) ("down".toList),
    svcJson ("b".toList) ("down".toList),
    svcJson ("c".toList) ("healthy".toList)]

def c4Parsed (v : JVal) : JVal :=
  JVal.jobj [(keySeverity, v), (keyServices, c4Services)]

/-- The normalized form of `c4Services` on the synchronous path. -/
def c4ServiceList : List Service :=
  [{ name := "a".toList, status := ServiceStatus.down, signals := [],
     suspected_components := [] },
   { name := "b".toList, status := ServiceStatus.down, signals := [],
     suspected_components := [] },
   { name := "c".toList, status := ServiceStatus.healthy, signals := [],
     suspected_components := [] }]

def c4StreamList : List JVal :=
  [svcJson ("a".toList) ("down".toList), svcJson ("b".toList) ("down".toList),
   svcJson ("c".toList) ("healthy".toList)]

def c1Frag1 : Str := "investigating...".toList
def c1Frag2 : Str := "<FINAL_".toList
def c1Frag3 : Str := "JSON>\x7b\"severity_score\":90\x7d</FINAL_JSON>".toList

/-- JSON encoding of a normalized service (statuses as their literal
strings), used to compare the two pipelines' scoring layers on the same
data. -/
def serviceToJson (s : Service) : JVal :=
  JVal.jobj [(keyName, JVal.jstr s.name), (keyStatus, JVal.jstr (statusText s.status)),
    (keySignals, JVal.jarr (s.signals.map JVal.jstr)),
    (keySuspected, JVal.jarr (s.suspected_components.map JVal.jstr))]

def pnodeToJson (n : PNode) : JVal :=
  JVal.jobj [(keyId, JVal.jstr n.id), (keyLabel, JVal.jstr n.label)]

def pedgeToJson (e : PEdge) : JVal :=
  JVal.jobj [(keyFrom, JVal.jstr e.fromNode), (keyTo, JVal.jstr e.toNode),
    (keyLabel, JVal.jstr e.label)]

def propagationToJson (p : Propagation) : JVal :=
  JVal.jobj [(keyNodes, JVal.jarr (p.nodes.map pnodeToJson)),
    (keyEdges, JVal.jarr (p.edges.map pedgeToJson))]

def c3SvcA : JVal := JVal.jobj [(keyName, JVal.jstr ("a".toList))]
def c3Parsed : JVal := JVal.jobj [(keyServices, JVal.jarr [c3SvcA, c3SvcA, c3SvcA])]

def isTokenEv : SEvent → Bool
  | SEvent.token _ => true
  | _ => false

def isFinalEv : SEvent → Bool
  | SEvent.finalEv _ => true
  | _ => false

def isErrorEv : SEvent → Bool
  | SEvent.errorEv _ => true
  | _ => false

def isTerminalEv (e : SEvent) : Bool := isFinalEv e || isErrorEv e

def concatAll : List Str → Str
  | [] => []
  | s :: ss => s ++ concatAll ss

def c5Frag : Str := "hello".toList

/-! ## Helper lemmas -/

theorem clamp_eq_of {x lo hi : ℚ} (h1 : lo ≤ x) (h2 : x ≤ hi) : clamp x lo hi = x := by
  simp [clamp, max_eq_right h1, min_eq_right h2]

theorem clamp_le {x lo hi : ℚ} : clamp x lo hi ≤ hi :=
  min_le_left _ _

theorem le_clamp {x lo hi : ℚ} (h : lo ≤ hi) : lo ≤ clamp x lo hi :=
  le_min h (le_max_left _ _)

theorem clampInt_nonneg (k : ℤ) : 0 ≤ clampInt k :=
  le_min (by norm_num) (le_max_left _ _)

theorem clampInt_le (k : ℤ) : clampInt k ≤ 100 := min_le_left _ _

theorem clamp_intCast (k : ℤ) : clamp ((k : ℚ)) 0 100 = ((clampInt k : ℤ) : ℚ) := by
  simp only [clamp, clampInt]
  push_cast
  rfl

theorem jsRound_intCast (k : ℤ) : jsRound ((k : ℚ)) = k := by
  have h0 : ⌊(1 : ℚ) / 2⌋ = 0 := by
    rw [Int.floor_eq_zero_iff]
    constructor <;> norm_num
  unfold jsRound
  rw [Int.floor_int_add, h0, add_zero]

theorem streamSafeInt_eq_intCast (v : Option JVal) :
    streamSafeInt v = ((streamSafeIntZ v : ℤ) : ℚ) := by
  unfold streamSafeInt streamSafeIntZ
  cases jsToNumber v with
  | none => norm_num
  | some n => exact clamp_intCast _

theorem streamSafeIntZ_nonneg (v : Option JVal) : 0 ≤ streamSafeIntZ v := by
  unfold streamSafeIntZ
  cases jsToNumber v with
  | none => norm_num
  | some n => exact clampInt_nonneg _

theorem streamSafeIntZ_le (v : Option JVal) : streamSafeIntZ v ≤ 100 := by
  unfold streamSafeIntZ
  cases jsToNumber v with
  | none => norm_num
  | some n => exact clampInt_le _

theorem toInt01to100_eq_intCast (v : Option JVal) (fallback : ℚ) :
    toInt01to100 v fallback = ((toIntZ v fallback : ℤ) : ℚ) := by
  unfold toInt01to100 toIntZ
  exact clamp_intCast _

/-- The deterministic floor survives the clamp whenever the other argument of
the max is at most 100. -/
theorem seventy_le_clampInt_max {m : ℤ} : (70 : ℤ) ≤ clampInt (max m 70) := by
  unfold clampInt
  refine le_min (by norm_num) (le_trans (le_max_right m 70) (le_max_right 0 _))

theorem lookupField_objInsert_self (fs : List (Str × JVal)) (k : Str) (v : JVal) :
    lookupField (objInsert fs k v) k = some v := by
  induction fs with
  | nil => simp [objInsert, lookupField]
  | cons kv rest ih =>
      obtain ⟨k0, v0⟩ := kv
      by_cases h : k0 = k
      · simp [objInsert, lookupField, h]
      · simp [objInsert, lookupField, h, ih]

theorem lookupField_objInsert_ne (fs : List (Str × JVal)) (k k0 : Str) (v : JVal)
    (h : k ≠ k0) : lookupField (objInsert fs k0 v) k = lookupField fs k := by
  have hk : ¬k0 = k := fun hh => h (Eq.symm hh)
  induction fs with
  | nil => simp [objInsert, lookupField, hk]
  | cons kv rest ih =>
      obtain ⟨k1, v1⟩ := kv
      by_cases h1 : k1 = k0
      · subst h1
        simp [objInsert, lookupField, hk]
      · by_cases h2 : k1 = k
        · subst h2
          simp [objInsert, lookupField, h1]
        · simp [objInsert, lookupField, h1, h2, ih]

/-! ## C7 -/

/-- C7: for every input value of `severity_score` or `business_impact_score`
(including non-numeric values, negatives, values above 100 and NaN), neither
score normalizer can fail (both are total functions), the normalized score is
an integer in [0,100], and a non-finite input maps to the fallback 0 — on
both the synchronous (`toInt01to100`) and streaming (`safeInt`) paths. -/
theorem c7_score_normalization_safe :
    ∀ v : Option JVal,
      (∃ n : ℤ, toInt01to100 v 0 = ((n : ℤ) : ℚ) ∧ 0 ≤ n ∧ n ≤ 100) ∧
      (∃ m : ℤ, streamSafeInt v = ((m : ℤ) : ℚ) ∧ 0 ≤ m ∧ m ≤ 100) ∧
      (jsToNumber v = none → toInt01to100 v 0 = 0 ∧ streamSafeInt v = 0) := by
  intro v
  refine ⟨⟨toIntZ v 0, toInt01to100_eq_intCast v 0, clampInt_nonneg _, clampInt_le _⟩,
    ⟨streamSafeIntZ v, streamSafeInt_eq_intCast v, ?_, ?_⟩, ?_⟩
  · unfold streamSafeIntZ
    cases jsToNumber v with
    | none => norm_num
    | some n => exact clampInt_nonneg _
  · unfold streamSafeIntZ
    cases jsToNumber v with
    | none => norm_num
    | some n => exact clampInt_le _
  · intro h
    constructor
    · unfold toInt01to100 toNumber
      rw [h]
      norm_num [jsRound, clamp]
    · unfold streamSafeInt
      rw [h]

/-- Witness for C7 at the concrete non-finite input NaN. -/
theorem c7_score_normalization_safe_witness :
    jsToNumber (some JVal.jnan) = none ∧
      (toInt01to100 (some JVal.jnan) 0 = 0 ∧ streamSafeInt (some JVal.jnan) = 0) :=
  ⟨rfl, (c7_score_normalization_safe (some JVal.jnan)).2.2 rfl⟩

/-! ## C8 -/

/-- C8: the synchronous pipeline extracts JSON by stripping code fences and
parsing the substring from the first opening brace to the last closing brace
of the cleaned text (this is the definition of `safeJSONParse` via
`extractCandidate`); whenever that parse fails, the pipeline returns the
typed error and never any report, and any returned report is exactly the
fully normalized parse result (never partially populated). -/
theorem c8_parse_failure_typed_error :
    (∀ text : Str, safeJSONParse text = jsonParseStr (extractCandidate text)) ∧
    (∀ text : Str, safeJSONParse text = none →
      syncPOSTModel text = Except.error aiInvalidJsonMsg) ∧
    (∀ (text : Str) (r : AnalyzeResult), syncPOSTModel text = Except.ok r →
      ∃ parsed, safeJSONParse text = some parsed ∧ r = normalizeSync parsed) := by
  refine ⟨fun _ => rfl, ?_, ?_⟩
  · intro text h
    unfold syncPOSTModel
    rw [h]
  · intro text r h
    unfold syncPOSTModel at h
    cases hp : safeJSONParse text with
    | none => rw [hp] at h; exact absurd h (by simp)
    | some parsed =>
        rw [hp] at h
        exact ⟨parsed, rfl, by injection h with h1; exact h1.symm⟩

/-- Witness for C8 at a concrete unparseable model text. -/
theorem c8_parse_failure_typed_error_witness :
    syncPOSTModel c8BadText = Except.error aiInvalidJsonMsg :=
  c8_parse_failure_typed_error.2.1 c8BadText (by with_unfolding_all rfl)

/-! ## C9 -/

/-- C9: for every request body to the execution-trigger endpoint, a service
identifier outside the allow-list `{api-gateway, primary-db, cache}` (in
particular any non-string) is rejected with the invalid-service error before
the webhook call is made, and the webhook call is made only for identifiers
on the allow-list. -/
theorem serviceStrOf_eq_some {o : Option JVal} {s : Str}
    (h : serviceStrOf o = some s) : o = some (JVal.jstr s) := by
  match o with
  | some (JVal.jstr t) =>
      unfold serviceStrOf at h
      injection h with h1
      rw [h1]
  | none => exact absurd h (by simp [serviceStrOf])
  | some JVal.jnull => exact absurd h (by simp [serviceStrOf])
  | some (JVal.jbool _) => exact absurd h (by simp [serviceStrOf])
  | some (JVal.jnum _) => exact absurd h (by simp [serviceStrOf])
  | some JVal.jnan => exact absurd h (by simp [serviceStrOf])
  | some (JVal.jarr _) => exact absurd h (by simp [serviceStrOf])
  | some (JVal.jobj _) => exact absurd h (by simp [serviceStrOf])

theorem c9_execute_allowlist :
    ∀ body : JVal,
      (isAllowedService (jvGet body keyService) = false →
        executeRoute body =
          { webhookCalled := false, response := ExecResponse.invalidService }) ∧
      ((executeRoute body).webhookCalled = true →
        ∃ s, jvGet body keyService = some (JVal.jstr s) ∧ allowedServices.contains s = true ∧
          (executeRoute body).response = ExecResponse.executed s) := by
  intro body
  cases hv : serviceStrOf (jvGet body keyService) with
  | none =>
      constructor
      · intro _
        unfold executeRoute
        rw [hv]
      · intro hw
        unfold executeRoute at hw
        rw [hv] at hw
        exact absurd hw (by simp)
  | some s =>
      by_cases hc : allowedServices.contains s = true
      · constructor
        · intro hfalse
          unfold isAllowedService at hfalse
          rw [hv] at hfalse
          simp only [hc] at hfalse
          exact absurd hfalse (by decide)
        · intro _
          refine ⟨s, serviceStrOf_eq_some hv, hc, ?_⟩
          unfold executeRoute
          rw [hv]
          dsimp only
          rw [if_pos hc]
      · constructor
        · intro _
          unfold executeRoute
          rw [hv]
          dsimp only
          rw [if_neg hc]
        · intro hw
          unfold executeRoute at hw
          rw [hv] at hw
          dsimp only at hw
          rw [if_neg hc] at hw
          exact absurd hw (by decide)

/-- Witness for C9 at a concrete out-of-list service identifier. -/
theorem c9_execute_allowlist_witness :
    executeRoute c9BadBody =
      { webhookCalled := false, response := ExecResponse.invalidService } :=
  (c9_execute_allowlist c9BadBody).1 (by decide)

/-! ## C10 -/

/-- C10: in the streaming route's final event, every field of the parsed JSON
object other than `severity_score`, `business_impact_score` and `confidence`
is delivered exactly as the model produced it — the route overwrites only
those three keys and performs no other validation or synthesis. -/
theorem c10_stream_frame (fs : List (Str × JVal)) (k : Str)
    (h1 : k ≠ keySeverity) (h2 : k ≠ keyImpact) (h3 : k ≠ keyConfidence) :
    jvGet (streamFinalReport (JVal.jobj fs)) k = lookupField fs k := by
  show lookupField (objInsert (objInsert (objInsert fs
      keySeverity (JVal.jnum (streamFinalSeverityOf (JVal.jobj fs))))
      keyImpact (JVal.jnum (streamFinalImpactOf (JVal.jobj fs))))
      keyConfidence (JVal.jnum (streamConfidenceOf (JVal.jobj fs)))) k = lookupField fs k
  rw [lookupField_objInsert_ne _ _ _ _ h3, lookupField_objInsert_ne _ _ _ _ h2,
    lookupField_objInsert_ne _ _ _ _ h1]

/-- Witness for C10: the incident-type field survives finalization verbatim. -/
theorem c10_stream_frame_witness :
    jvGet (streamFinalReport (JVal.jobj c10Fields)) keyIncidentType =
      lookupField c10Fields keyIncidentType :=
  c10_stream_frame c10Fields keyIncidentType (by decide) (by decide) (by decide)

/-! ## C6 -/

/-- C6: on both pipelines the final business-impact score equals
`clamp(round(0.5·ai_impact + 0.3·deterministic_impact + 0.2·blast_radius), 0, 100)`,
and the deterministic impact of a propagation graph with 3 nodes and 2 edges
is `clamp(3·5 + 2·8, 0, 100) = 31`. -/
theorem c6_impact_formula :
    (∀ parsed : JVal, (normalizeSync parsed).business_impact_score =
        clamp ((jsRound (syncAiImpact parsed * (0.5 : ℚ) +
          syncDeterministicImpact parsed * (0.3 : ℚ) +
          syncBlastRadius parsed * (0.2 : ℚ)) : ℤ) : ℚ) 0 100) ∧
    (∀ fs : List (Str × JVal), jvGet (streamFinalReport (JVal.jobj fs)) keyImpact =
        some (JVal.jnum (clamp ((jsRound (streamAiImpact (JVal.jobj fs) * (0.5 : ℚ) +
          streamDeterministicImpact (JVal.jobj fs) * (0.3 : ℚ) +
          streamBlastRadius (JVal.jobj fs) * (0.2 : ℚ)) : ℤ) : ℚ) 0 100))) ∧
    (∀ p : Propagation, p.nodes.length = 3 → p.edges.length = 2 →
        calculateImpactFromPropagation p = 31) := by
  refine ⟨fun parsed => rfl, ?_, ?_⟩
  · intro fs
    show lookupField (objInsert (objInsert (objInsert fs
        keySeverity (JVal.jnum (streamFinalSeverityOf (JVal.jobj fs))))
        keyImpact (JVal.jnum (streamFinalImpactOf (JVal.jobj fs))))
        keyConfidence (JVal.jnum (streamConfidenceOf (JVal.jobj fs)))) keyImpact = _
    rw [lookupField_objInsert_ne _ _ _ _ (by decide), lookupField_objInsert_self]
    rfl
  · intro p h1 h2
    unfold calculateImpactFromPropagation
    rw [h1, h2]
    have h31 : ((3 : ℕ) : ℚ) * 5 + ((2 : ℕ) : ℚ) * 8 = 31 := by norm_num
    rw [h31]
    exact clamp_eq_of (by norm_num) (by norm_num)

/-- Witness for C6 at the concrete fallback topology (3 nodes, 2 edges). -/
theorem c6_impact_formula_witness : calculateImpactFromPropagation c6Prop = 31 :=
  c6_impact_formula.2.2 c6Prop rfl rfl

/-! ## C4 -/

theorem c4_sync_services (v : JVal) : syncServices (c4Parsed v) = c4ServiceList := rfl

theorem c4_stream_services (v : JVal) : streamServices (c4Parsed v) = c4StreamList := rfl

theorem c4_sync_det : calculateSeverityFromServicesSync c4ServiceList = 70 := by
  with_unfolding_all rfl

theorem c4_stream_det : calculateSeverityFromServicesStream c4StreamList = 70 := by
  with_unfolding_all rfl

/-- C4: on each pipeline path the final severity equals
`clamp(max(ai_severity, deterministic_severity), 0, 100)` (the synchronous
route adds a `Math.round` that is the identity on these integer values), and
with services `[down, down, healthy]` both deterministic variants give 70, so
the final severity is at least 70 for every AI-supplied `severity_score`
value, including 0. -/
theorem c4_severity_floor :
    (∀ parsed : JVal, (normalizeSync parsed).severity_score =
        clamp ((jsRound (max (syncAiSeverity parsed) (syncDeterministicSeverity parsed)) : ℤ) : ℚ)
          0 100) ∧
    (∀ fs : List (Str × JVal), jvGet (streamFinalReport (JVal.jobj fs)) keySeverity =
        some (JVal.jnum (clamp (max (streamAiSeverity (JVal.jobj fs))
          (streamDeterministicSeverity (JVal.jobj fs))) 0 100))) ∧
    (∀ v : JVal, calculateSeverityFromServicesSync (syncServices (c4Parsed v)) = 70 ∧
        calculateSeverityFromServicesStream (streamServices (c4Parsed v)) = 70) ∧
    (∀ v : JVal, 70 ≤ (normalizeSync (c4Parsed v)).severity_score) ∧
    (∀ v : JVal, ∃ q : ℚ, jvGet (streamFinalReport (c4Parsed v)) keySeverity =
        some (JVal.jnum q) ∧ 70 ≤ q) := by
  have hgenStream : ∀ fs : List (Str × JVal),
      jvGet (streamFinalReport (JVal.jobj fs)) keySeverity =
        some (JVal.jnum (clamp (max (streamAiSeverity (JVal.jobj fs))
          (streamDeterministicSeverity (JVal.jobj fs))) 0 100)) := by
    intro fs
    show lookupField (objInsert (objInsert (objInsert fs
        keySeverity (JVal.jnum (streamFinalSeverityOf (JVal.jobj fs))))
        keyImpact (JVal.jnum (streamFinalImpactOf (JVal.jobj fs))))
        keyConfidence (JVal.jnum (streamConfidenceOf (JVal.jobj fs)))) keySeverity = _
    rw [lookupField_objInsert_ne _ _ _ _ (by decide),
      lookupField_objInsert_ne _ _ _ _ (by decide), lookupField_objInsert_self]
    rfl
  refine ⟨fun parsed => rfl, hgenStream, ?_, ?_, ?_⟩
  · intro v
    rw [c4_sync_services v, c4_stream_services v]
    exact ⟨c4_sync_det, c4_stream_det⟩
  · intro v
    have hdet : syncDeterministicSeverity (c4Parsed v) = 70 := by
      unfold syncDeterministicSeverity
      rw [c4_sync_services v]
      exact c4_sync_det
    have hai : syncAiSeverity (c4Parsed v) = ((toIntZ (some v) 0 : ℤ) : ℚ) := by
      show toInt01to100 (jvGet (c4Parsed v) keySeverity) 0 = _
      have hget : jvGet (c4Parsed v) keySeverity = some v := rfl
      rw [hget, toInt01to100_eq_intCast]
    show 70 ≤ clamp ((jsRound (max (syncAiSeverity (c4Parsed v))
      (syncDeterministicSeverity (c4Parsed v))) : ℤ) : ℚ) 0 100
    rw [hai, hdet]
    have h70 : (70 : ℚ) = ((70 : ℤ) : ℚ) := by norm_cast
    rw [h70, ← Int.cast_max, jsRound_intCast, clamp_intCast]
    have hb := seventy_le_clampInt_max (m := toIntZ (some v) 0)
    exact_mod_cast hb
  · intro v
    refine ⟨clamp (max (streamAiSeverity (c4Parsed v))
      (streamDeterministicSeverity (c4Parsed v))) 0 100, hgenStream _, ?_⟩
    have hdet : streamDeterministicSeverity (c4Parsed v) = 70 := by
      unfold streamDeterministicSeverity
      rw [c4_stream_services v]
      exact c4_stream_det
    have hai : streamAiSeverity (c4Parsed v) = ((streamSafeIntZ (some v) : ℤ) : ℚ) := by
      show streamSafeInt (jvGet (c4Parsed v) keySeverity) = _
      have hget : jvGet (c4Parsed v) keySeverity = some v := rfl
      rw [hget, streamSafeInt_eq_intCast]
    rw [hai, hdet]
    have h70 : (70 : ℚ) = ((70 : ℤ) : ℚ) := by norm_cast
    rw [h70, ← Int.cast_max, clamp_intCast]
    have hb := seventy_le_clampInt_max (m := streamSafeIntZ (some v))
    exact_mod_cast hb

/-! ## C1 -/

/-- C1: evaluating the streaming parser on the spec's own example fragments
(the narration text, then the split-off head of the delimiter, then the rest
of the delimiter with the severity-90 JSON payload and the closing tag).
Contrary to the claim, the narration span is emitted twice — the variable
lastNarrationSentIndex is never advanced past already-sent text — and the
split-off head of the delimiter leaks out as a third narration event; the
final event itself does carry severity 90. -/
theorem c1_narration_duplicated :
    runStream [c1Frag1, c1Frag2, c1Frag3] =
      [SEvent.token c1Frag1, SEvent.token c1Frag2, SEvent.token c1Frag1,
       SEvent.finalEv (JVal.jobj [(keySeverity, JVal.jnum 90), (keyImpact, JVal.jnum 0),
         (keyConfidence, JVal.jnum 0)])] := by
  with_unfolding_all rfl

/-! ## C2 -/

/-- C2 counterexample: on the same parsed JSON object `{}` the synchronous
route delivers severity 20 (fallback services, two degraded, threshold
formula) while the streaming route's final event carries severity 0 — the
two pipelines do not have identical final semantics. -/
theorem c2_pipelines_differ_counterexample :
    (normalizeSync (JVal.jobj [])).severity_score = 20 ∧
    streamFinalSeverityOf (JVal.jobj []) = 0 ∧
    jvGet (streamFinalReport (JVal.jobj [])) keySeverity = some (JVal.jnum 0) ∧
    (normalizeSync (JVal.jobj [])).severity_score ≠ streamFinalSeverityOf (JVal.jobj []) := by
  have h1 : (normalizeSync (JVal.jobj [])).severity_score = 20 := by
    with_unfolding_all rfl
  have h2 : streamFinalSeverityOf (JVal.jobj []) = 0 := by
    with_unfolding_all rfl
  have h3 : jvGet (streamFinalReport (JVal.jobj [])) keySeverity = some (JVal.jnum 0) := by
    with_unfolding_all rfl
  refine ⟨h1, h2, h3, ?_⟩
  rw [h1, h2]
  norm_num

/-- C2 amended: the two pipelines share the AI-score coercions
(`safeInt = toInt01to100(·,0)`, `safeProb = toProb01(·,0)`) and compute
identical blast-radius and propagation-impact figures on the same data, but
their deterministic severity policies and normalization layers differ, so
the same parsed JSON does not in general yield the same final report. -/
theorem c2_shared_scoring_formulas :
    (∀ v : Option JVal, streamSafeInt v = toInt01to100 v 0) ∧
    (∀ v : Option JVal, streamSafeProb v = toProb01 v 0) ∧
    (∀ svcs : List Service,
      calculateBlastRadiusStream (svcs.map serviceToJson) = calculateBlastRadius svcs) ∧
    (∀ p : Propagation,
      calculateImpactFromPropagationStream (propagationToJson p) =
        calculateImpactFromPropagation p) := by
  have hzero : clamp ((jsRound ((0 : ℚ)) : ℤ) : ℚ) 0 100 = 0 := by
    have h0 : jsRound ((0 : ℚ)) = 0 := by
      have := jsRound_intCast 0
      simpa using this
    rw [h0]
    norm_num [clamp]
  refine ⟨?_, ?_, ?_, ?_⟩
  · intro v
    unfold streamSafeInt toInt01to100 toNumber
    cases h : jsToNumber v with
    | some n => rfl
    | none =>
        show (0 : ℚ) = clamp ((jsRound ((Option.getD none 0 : ℚ)) : ℤ) : ℚ) 0 100
        rw [show (Option.getD none 0 : ℚ) = 0 from rfl, hzero]
  · intro v
    unfold streamSafeProb toProb01 toNumber
    cases h : jsToNumber v with
    | some n => rfl
    | none =>
        show (0 : ℚ) = clamp ((Option.getD none 0 : ℚ)) 0 1
        rw [show (Option.getD none 0 : ℚ) = 0 from rfl]
        norm_num [clamp]
  · intro svcs
    unfold calculateBlastRadiusStream calculateBlastRadius countStatus
    rw [List.length_map]
    have hcount : ∀ (txt : Str) (st : ServiceStatus),
        (∀ s : Service, statusFieldIs (serviceToJson s) txt = decide (s.status = st)) →
        (List.filter (fun s => statusFieldIs s txt) (svcs.map serviceToJson)).length =
          (List.filter (fun s => decide (s.status = st)) svcs).length := by
      intro txt st hpt
      rw [List.filter_map, List.length_map]
      congr 1
      apply List.filter_congr
      intro s _
      show statusFieldIs (serviceToJson s) txt = decide (s.status = st)
      exact hpt s
    have hdown := hcount ("down".toList) ServiceStatus.down (by
      intro s
      show decide (statusText s.status = ("down".toList)) = decide (s.status = ServiceStatus.down)
      cases s.status <;> rfl)
    have hdeg := hcount ("degraded".toList) ServiceStatus.degraded (by
      intro s
      show decide (statusText s.status = ("degraded".toList)) =
        decide (s.status = ServiceStatus.degraded)
      cases s.status <;> rfl)
    rw [hdown, hdeg]
  · intro p
    unfold calculateImpactFromPropagationStream calculateImpactFromPropagation
    have hn : jarrElems (jvGet (propagationToJson p) keyNodes) = p.nodes.map pnodeToJson := rfl
    have he : jarrElems (jvGet (propagationToJson p) keyEdges) = p.edges.map pedgeToJson := rfl
    rw [hn, he, List.length_map, List.length_map]

/-! ## C3 -/

/-- C3 counterexample: three supplied services that all coerce to the same
name `a` count as 3 valid entries, so the fallback is not injected, but the
subsequent duplicate-name filter shrinks the list to length 1 — the
normalized services list is not always of length at least 3. -/
theorem c3_dup_names_counterexample :
    (syncCoercedServices c3Parsed).length = 3 ∧
      (normalizeSync c3Parsed).services.length = 1 ∧
      ¬3 ≤ (normalizeSync c3Parsed).services.length := by
  have hlen : (normalizeSync c3Parsed).services.length = 1 := rfl
  refine ⟨rfl, hlen, ?_⟩
  rw [hlen]
  norm_num

theorem dedup_fallback (it : Str) :
    dedupByName (buildFallbackServices it) = buildFallbackServices it := rfl

theorem fallback_length (it : Str) : (buildFallbackServices it).length = 3 := rfl

theorem fallback_names (it : Str) :
    (buildFallbackServices it).map Service.name = [svcGatewayName, svcDbName, svcCacheName] := rfl

/-- C3 amended: when fewer than 3 valid service entries are supplied, the
normalized services list is exactly the fixed 3-service fallback topology
(api-gateway, primary-db, cache); in general the normalized list has length
at least 3 unless at least 3 valid entries were supplied but fewer than 3
distinct names survive the duplicate-name filter (first occurrence wins),
in which case it can be shorter. -/
theorem c3_services_fallback_amended :
    (∀ parsed : JVal, (syncCoercedServices parsed).length < 3 →
      (normalizeSync parsed).services = buildFallbackServices (syncIncidentType parsed) ∧
      (normalizeSync parsed).services.length = 3 ∧
      (normalizeSync parsed).services.map Service.name =
        [svcGatewayName, svcDbName, svcCacheName]) ∧
    (∀ parsed : JVal, 3 ≤ (normalizeSync parsed).services.length ∨
      (3 ≤ (syncCoercedServices parsed).length ∧
        (dedupByName (syncCoercedServices parsed)).length < 3)) := by
  have hpart1 : ∀ parsed : JVal, (syncCoercedServices parsed).length < 3 →
      (normalizeSync parsed).services = buildFallbackServices (syncIncidentType parsed) := by
    intro parsed h
    show syncServices parsed = _
    unfold syncServices syncServicesPreDedup
    rw [if_pos h, dedup_fallback]
  refine ⟨fun parsed h => ⟨hpart1 parsed h, ?_, ?_⟩, ?_⟩
  · rw [hpart1 parsed h]
    exact fallback_length _
  · rw [hpart1 parsed h]
    exact fallback_names _
  · intro parsed
    by_cases h : (syncCoercedServices parsed).length < 3
    · left
      rw [hpart1 parsed h, fallback_length]
    · by_cases h2 : (dedupByName (syncCoercedServices parsed)).length < 3
      · exact Or.inr ⟨not_lt.mp h, h2⟩
      · left
        have hserv : (normalizeSync parsed).services = dedupByName (syncCoercedServices parsed) := by
          show syncServices parsed = _
          unfold syncServices syncServicesPreDedup
          rw [if_neg h]
        rw [hserv]
        exact not_lt.mp h2

/-- Witness for C3 (amended) at the concrete parsed JSON `{}`: no services
supplied, so the normalized list is exactly the fallback topology. -/
theorem c3_services_fallback_amended_witness :
    (normalizeSync (JVal.jobj [])).services =
        buildFallbackServices (syncIncidentType (JVal.jobj [])) ∧
      (normalizeSync (JVal.jobj [])).services.length = 3 ∧
      (normalizeSync (JVal.jobj [])).services.map Service.name =
        [svcGatewayName, svcDbName, svcCacheName] :=
  c3_services_fallback_amended.1 (JVal.jobj []) (by decide)

/-! ## C5 -/

theorem streamHandleParsed_terminal (parsed : JVal) :
    isTerminalEv (streamHandleParsed parsed).1 = true := by
  cases parsed <;> rfl

theorem narrStep_tokens (st : StreamState) (f t : Str) :
    ∀ e ∈ (narrStep st f t).2, isTokenEv e = true := by
  unfold narrStep
  by_cases hc : (!st.finalSent && !st.jsonStarted) = true
  · rw [if_pos hc]
    cases hidx : indexOfStr f openTag with
    | none =>
        intro e he
        simp only [List.mem_singleton] at he
        rw [he]
        rfl
    | some si =>
        dsimp only
        by_cases htrim : (jsTrim (jsSlice f st.lastNarrationSentIndex si)).isEmpty = true
        · rw [if_pos htrim]
          intro e he
          simp at he
        · rw [if_neg htrim]
          intro e he
          simp only [List.mem_singleton] at he
          rw [he]
          rfl
  · rw [if_neg hc]
    intro e he
    simp at he

theorem finishStep_shape (st : StreamState) (f : Str) (js : Bool) :
    ((finishStep st f js).1.closed = st.closed ∧ (finishStep st f js).2 = []) ∨
    ((finishStep st f js).1.closed = true ∧
      ∃ t, (finishStep st f js).2 = [t] ∧ isTerminalEv t = true) := by
  unfold finishStep
  by_cases hfs : (!st.finalSent) = true
  · rw [if_pos hfs]
    cases h1 : indexOfStr f openTag with
    | none => exact Or.inl ⟨rfl, rfl⟩
    | some s0 =>
        cases h2 : indexOfStr f closeTag with
        | none => exact Or.inl ⟨rfl, rfl⟩
        | some e0 =>
            dsimp only
            by_cases hgt : e0 > s0
            · rw [if_pos hgt]
              cases hp : jsonParseStr (jsTrim (jsSlice f (s0 + openTag.length) e0)) with
              | none => exact Or.inr ⟨rfl, SEvent.errorEv invalidJsonMsg, rfl, rfl⟩
              | some parsed =>
                  exact Or.inr ⟨rfl, (streamHandleParsed parsed).1, rfl,
                    streamHandleParsed_terminal parsed⟩
            · rw [if_neg hgt]
              exact Or.inl ⟨rfl, rfl⟩
  · rw [if_neg hfs]
    exact Or.inl ⟨rfl, rfl⟩

theorem processChunk_closed (st : StreamState) (c : Str) (h : st.closed = true) :
    processChunk st c = (st, []) := by
  unfold processChunk
  rw [h]
  rfl

theorem processChunk_shape (st : StreamState) (c : Str) (h : st.closed = false) :
    ((processChunk st c).1.closed = false ∧
      ∀ e ∈ (processChunk st c).2, isTokenEv e = true) ∨
    ((processChunk st c).1.closed = true ∧
      ∃ ts t, (processChunk st c).2 = ts ++ [t] ∧
        (∀ e ∈ ts, isTokenEv e = true) ∧ isTerminalEv t = true) := by
  unfold processChunk
  rw [h]
  simp only [Bool.false_eq_true, if_false]
  by_cases he : c.isEmpty = true
  · rw [if_pos he]
    exact Or.inl ⟨h, by intro e hee; simp at hee⟩
  · rw [if_neg he]
    dsimp only
    rcases finishStep_shape st (st.fullText ++ c) (narrStep st (st.fullText ++ c) c).1 with
      ⟨hcl, hev⟩ | ⟨hcl, t, hev, ht⟩
    · left
      refine ⟨by rw [hcl]; exact h, ?_⟩
      rw [hev, List.append_nil]
      exact narrStep_tokens st (st.fullText ++ c) c
    · right
      refine ⟨hcl, (narrStep st (st.fullText ++ c) c).2, t, by rw [hev], ?_, ht⟩
      exact narrStep_tokens st (st.fullText ++ c) c

theorem runChunks_closed (st : StreamState) (frags : List Str) (h : st.closed = true) :
    runChunks st frags = (st, []) := by
  induction frags with
  | nil => rfl
  | cons c cs ih =>
      unfold runChunks
      rw [processChunk_closed st c h]
      dsimp only
      rw [ih]
      rfl

theorem runChunks_shape (frags : List Str) :
    ∀ st : StreamState, st.closed = false →
    ((runChunks st frags).1.closed = false ∧
      ∀ e ∈ (runChunks st frags).2, isTokenEv e = true) ∨
    ((runChunks st frags).1.closed = true ∧
      ∃ ts t, (runChunks st frags).2 = ts ++ [t] ∧
        (∀ e ∈ ts, isTokenEv e = true) ∧ isTerminalEv t = true) := by
  induction frags with
  | nil =>
      intro st h
      exact Or.inl ⟨h, by intro e he; simp [runChunks] at he⟩
  | cons c cs ih =>
      intro st h
      unfold runChunks
      dsimp only
      rcases processChunk_shape st c h with ⟨h1cl, h1tok⟩ | ⟨h1cl, ts, t, h1ev, h1ts, h1t⟩
      · rcases ih (processChunk st c).1 h1cl with ⟨h2cl, h2tok⟩ | ⟨h2cl, ts, t, h2ev, h2ts, h2t⟩
        · left
          refine ⟨h2cl, ?_⟩
          intro e he
          rcases List.mem_append.mp he with h3 | h3
          · exact h1tok e h3
          · exact h2tok e h3
        · right
          refine ⟨h2cl, (processChunk st c).2 ++ ts, t, ?_, ?_, h2t⟩
          · rw [h2ev, List.append_assoc]
          · intro e he
            rcases List.mem_append.mp he with h3 | h3
            · exact h1tok e h3
            · exact h2ts e h3
      · right
        rw [runChunks_closed _ cs h1cl]
        exact ⟨h1cl, ts, t, by rw [h1ev, List.append_nil], h1ts, h1t⟩

theorem runStream_shape (frags : List Str) :
    ∃ ts t, runStream frags = ts ++ [t] ∧
      (∀ e ∈ ts, isTokenEv e = true) ∧ isTerminalEv t = true := by
  have hrs : runStream frags =
      (if (runChunks initStreamState frags).1.closed = true
        then (runChunks initStreamState frags).2
        else (runChunks initStreamState frags).2 ++ [SEvent.errorEv noFinalJsonMsg]) := rfl
  rcases runChunks_shape frags initStreamState rfl with ⟨hcl, htok⟩ | ⟨hcl, ts, t, hev, hts, ht⟩
  · refine ⟨(runChunks initStreamState frags).2, SEvent.errorEv noFinalJsonMsg, ?_, htok, rfl⟩
    rw [hrs, hcl]
    rfl
  · refine ⟨ts, t, ?_, hts, ht⟩
    rw [hrs, hcl, if_pos rfl, hev]

theorem strStarts_append (l r pat : Str) (h : strStarts l pat = true) :
    strStarts (l ++ r) pat = true := by
  induction l generalizing pat with
  | nil =>
      cases pat with
      | nil =>
          cases r with
          | nil => rfl
          | cons c cs => rfl
      | cons p ps => exact absurd h (by simp [strStarts])
  | cons c cs ih =>
      cases pat with
      | nil => rfl
      | cons p ps =>
          unfold strStarts at h
          rw [Bool.and_eq_true] at h
          obtain ⟨h1, h2⟩ := h
          show (decide (c = p) && strStarts (cs ++ r) ps) = true
          rw [h1, ih ps h2]
          rfl

theorem idxOfAux_append_isSome (pat l r : Str) (i : Nat)
    (h : (idxOfAux pat l i).isSome = true) : (idxOfAux pat (l ++ r) i).isSome = true := by
  induction l generalizing i with
  | nil =>
      unfold idxOfAux at h
      by_cases hs : strStarts [] pat = true
      · have hr : strStarts r pat = true := strStarts_append [] r pat hs
        show (idxOfAux pat r i).isSome = true
        cases r with
        | nil =>
            unfold idxOfAux
            rw [if_pos hr]
            rfl
        | cons c cs =>
            unfold idxOfAux
            rw [if_pos hr]
            rfl
      · rw [if_neg hs] at h
        simp at h
  | cons c cs ih =>
      show (idxOfAux pat (c :: (cs ++ r)) i).isSome = true
      unfold idxOfAux at h ⊢
      by_cases hs : strStarts (c :: (cs ++ r)) pat = true
      · rw [if_pos hs]
        rfl
      · rw [if_neg hs]
        have hs0 : ¬strStarts (c :: cs) pat = true := by
          intro hh
          exact hs (strStarts_append (c :: cs) r pat hh)
        rw [if_neg hs0] at h
        exact ih (i + 1) h

theorem containsStr_append (l r pat : Str) (h : containsStr l pat = true) :
    containsStr (l ++ r) pat = true :=
  idxOfAux_append_isSome pat l r 0 h

theorem containsStr_append_false (l r pat : Str)
    (h : containsStr (l ++ r) pat = false) : containsStr l pat = false := by
  by_cases hc : containsStr l pat = true
  · rw [containsStr_append l r pat hc] at h
    exact absurd h (by simp)
  · exact Bool.not_eq_true _ |>.mp hc

theorem indexOfStr_eq_none_of_contains_false (s pat : Str)
    (h : containsStr s pat = false) : indexOfStr s pat = none := by
  unfold containsStr at h
  cases hidx : indexOfStr s pat with
  | none => rfl
  | some i => rw [hidx] at h; exact absurd h (by simp)

theorem processChunk_no_tag (ft c : Str) (i : Nat) (hne : c.isEmpty = false)
    (hnc : containsStr (ft ++ c) openTag = false) :
    processChunk ⟨ft, false, i, false, false⟩ c =
      (⟨ft ++ c, false, i, false, false⟩, [SEvent.token c]) := by
  have hidx : indexOfStr (ft ++ c) openTag = none :=
    indexOfStr_eq_none_of_contains_false _ _ hnc
  unfold processChunk
  simp only [Bool.false_eq_true, if_false, hne]
  have hnarr : narrStep ⟨ft, false, i, false, false⟩ (ft ++ c) c = (false, [SEvent.token c]) := by
    unfold narrStep
    simp only [Bool.not_false, Bool.and_self, if_pos]
    rw [hidx]
  have hfin : finishStep ⟨ft, false, i, false, false⟩ (ft ++ c) false =
      (⟨ft ++ c, false, i, false, false⟩, []) := by
    unfold finishStep
    simp only [Bool.not_false, if_pos]
    rw [hidx]
  rw [hnarr, hfin]
  rfl

theorem runChunks_no_tag (frags : List Str) :
    ∀ (acc : Str) (i : Nat), containsStr (acc ++ concatAll frags) openTag = false →
    runChunks ⟨acc, false, i, false, false⟩ frags =
      (⟨acc ++ concatAll frags, false, i, false, false⟩,
        (frags.filter (fun f => !f.isEmpty)).map SEvent.token) := by
  induction frags with
  | nil =>
      intro acc i _
      have h1 : runChunks (⟨acc, false, i, false, false⟩ : StreamState) [] =
          ((⟨acc, false, i, false, false⟩ : StreamState), []) := rfl
      rw [h1, show concatAll [] = ([] : Str) from rfl, List.append_nil]
      rfl
  | cons c cs ih =>
      intro acc i hnc
      have hassoc : acc ++ concatAll (c :: cs) = (acc ++ c) ++ concatAll cs := by
        show acc ++ (c ++ concatAll cs) = _
        rw [List.append_assoc]
      unfold runChunks
      by_cases he : c.isEmpty = true
      · have hc : c = [] := List.isEmpty_iff.mp he
        subst hc
        have hpc : processChunk ⟨acc, false, i, false, false⟩ [] =
            (⟨acc, false, i, false, false⟩, []) := rfl
        rw [hpc]
        dsimp only
        have hnc' : containsStr (acc ++ concatAll cs) openTag = false := by
          have hx : acc ++ concatAll (([] : Str) :: cs) = acc ++ concatAll cs := rfl
          rw [← hx]
          exact hnc
        rw [ih acc i hnc']
        have hconcat : concatAll (([] : Str) :: cs) = concatAll cs := rfl
        rw [hconcat]
        rfl
      · have hne : c.isEmpty = false := Bool.not_eq_true _ |>.mp he
        have hnc1 : containsStr (acc ++ c) openTag = false := by
          apply containsStr_append_false (acc ++ c) (concatAll cs)
          rw [← hassoc]
          exact hnc
        rw [processChunk_no_tag acc c i hne hnc1]
        dsimp only
        have hnc2 : containsStr ((acc ++ c) ++ concatAll cs) openTag = false := by
          rw [← hassoc]
          exact hnc
        rw [ih (acc ++ c) i hnc2]
        rw [hassoc]
        have hfilter : (List.filter (fun f => !f.isEmpty) (c :: cs)) =
            c :: List.filter (fun f => !f.isEmpty) cs := by
          rw [List.filter_cons_of_pos]
          rw [hne]
          rfl
        rw [hfilter]
        rfl

theorem runStream_no_tag (frags : List Str)
    (h : containsStr (concatAll frags) openTag = false) :
    runStream frags = (frags.filter (fun f => !f.isEmpty)).map SEvent.token ++
      [SEvent.errorEv noFinalJsonMsg] := by
  have hrs : runStream frags =
      (if (runChunks initStreamState frags).1.closed = true
        then (runChunks initStreamState frags).2
        else (runChunks initStreamState frags).2 ++ [SEvent.errorEv noFinalJsonMsg]) := rfl
  have hinit : initStreamState = ⟨[], false, 0, false, false⟩ := rfl
  rw [hrs, hinit, runChunks_no_tag frags [] 0 (by rw [List.nil_append]; exact h)]
  rfl

theorem filter_error_map_token (l : List Str) :
    List.filter isErrorEv (l.map SEvent.token) = [] := by
  induction l with
  | nil => rfl
  | cons c cs ih =>
      show List.filter isErrorEv (SEvent.token c :: cs.map SEvent.token) = []
      rw [List.filter_cons_of_neg]
      · exact ih
      · simp [isErrorEv]

/-- C5: across one streaming analysis the parser emits exactly one terminal
event (`final` or `error`), all narration events come strictly before it and
nothing is emitted after it; and for every fragment sequence whose
accumulated text never contains `<FINAL_JSON>`, the run ends with exactly
one `error` event and no `final` event. -/
theorem c5_terminal_discipline :
    (∀ frags : List Str, ∃ ts t, runStream frags = ts ++ [t] ∧
      (∀ e ∈ ts, isTokenEv e = true) ∧ isTerminalEv t = true) ∧
    (∀ frags : List Str, containsStr (concatAll frags) openTag = false →
      runStream frags = (frags.filter (fun f => !f.isEmpty)).map SEvent.token ++
        [SEvent.errorEv noFinalJsonMsg] ∧
      (List.filter isErrorEv (runStream frags)).length = 1 ∧
      ∀ e ∈ runStream frags, isFinalEv e = false) := by
  refine ⟨runStream_shape, ?_⟩
  intro frags h
  have heq := runStream_no_tag frags h
  refine ⟨heq, ?_, ?_⟩
  · rw [heq, List.filter_append, filter_error_map_token]
    rfl
  · intro e he
    rw [heq] at he
    rcases List.mem_append.mp he with h1 | h1
    · rcases List.mem_map.mp h1 with ⟨f, _, hf⟩
      rw [← hf]
      rfl
    · simp only [List.mem_singleton] at h1
      rw [h1]
      rfl

/-- Witness for C5 at the concrete delimiter-free fragment list `["hello"]`. -/
theorem c5_terminal_discipline_witness :
    (∃ ts t, runStream [c5Frag] = ts ++ [t] ∧
      (∀ e ∈ ts, isTokenEv e = true) ∧ isTerminalEv t = true) ∧
    (runStream [c5Frag] = ([c5Frag].filter (fun f => !f.isEmpty)).map SEvent.token ++
        [SEvent.errorEv noFinalJsonMsg] ∧
      (List.filter isErrorEv (runStream [c5Frag])).length = 1 ∧
      ∀ e ∈ runStream [c5Frag], isFinalEv e = false) :=
  ⟨c5_terminal_discipline.1 [c5Frag], c5_terminal_discipline.2 [c5Frag] (by decide)⟩

end AutoOps
